import Mathlib

/-!
# Verification of the blacklist_report aggregation engine

Shallow embedding of `src/web-app/src/utils/dataProcessor.ts` (the extended
schema, which adds the complain counter pair to the basic one) and of the
batch branch of `handleUpload` in `src/web-app/src/App.tsx`.

Modelling conventions:
* JavaScript integer counters are embedded as `Int` (they arise from
  `parseInt(...) || 0`, which yields integers, possibly negative).
* Derived percentage rates are embedded as `ℚ`, abstracting IEEE floating
  point by exact rational arithmetic; the formula shape
  `total > 0 ? (black / total) * 100 : 0` is preserved verbatim.
* A JavaScript `Map` is embedded as an association list in insertion order:
  `Map.set` on an existing key updates the entry in place (keeping its
  position), a new key is appended at the end, exactly as ECMAScript
  specifies iteration order for `Map`.
* `Array.prototype.sort` with comparator `(a, b) => b.totalOutbound -
  a.totalOutbound` is embedded as a stable descending insertion sort:
  ECMAScript 2019 requires `sort` to be stable.
* `Papa.parse` is an external library (not part of this repository's
  sources); `parseCSVData` is therefore embedded as a function of Papa's
  output (a structural-error list and an optional row list), quantifying
  over every possible parse result.
-/

/-- One parsed input row, `BlacklistRecord` from `types.ts`, with the
extended schema's complain counters. -/
structure BlacklistRecord where
  dt : String
  account : String
  province : String
  group : String
  total_outbound_count : Int
  black_outbound_count : Int
  total_pickup_count : Int
  black_pickup_count : Int
  total_pay_count : Int
  black_pay_count : Int
  total_complain_count : Int
  black_complain_count : Int
  deriving Repr, DecidableEq

/-- The derived-rate formula used everywhere in `dataProcessor.ts`:
`total > 0 ? (black / total) * 100 : 0`. -/
def rate (black total : Int) : ℚ :=
  if 0 < total then ((black : ℚ) / (total : ℚ)) * 100 else 0

/-- Structure `OverallStats` from `types.ts` (extended schema). -/
structure OverallStats where
  totalOutbound : Int
  blackOutbound : Int
  totalPickup : Int
  blackPickup : Int
  totalPay : Int
  blackPay : Int
  totalComplain : Int
  blackComplain : Int
  blackOutboundRate : ℚ
  blackPickupRate : ℚ
  blackPayRate : ℚ
  blackComplainRate : ℚ
  deriving Repr, DecidableEq

/-- Structure `GroupStats` from `types.ts`: note it carries exactly two rate fields
(outbound and pickup), no pay rate. -/
structure GroupStats where
  group : String
  totalOutbound : Int
  blackOutbound : Int
  totalPickup : Int
  blackPickup : Int
  totalPay : Int
  blackPay : Int
  blackOutboundRate : ℚ
  blackPickupRate : ℚ
  deriving Repr, DecidableEq

/-- Structure `ProvinceStats` from `types.ts`. -/
structure ProvinceStats where
  province : String
  totalOutbound : Int
  blackOutbound : Int
  totalPickup : Int
  blackPickup : Int
  totalPay : Int
  blackPay : Int
  blackOutboundRate : ℚ
  blackPickupRate : ℚ
  deriving Repr, DecidableEq

/-- Structure `AccountStats` from `types.ts`. -/
structure AccountStats where
  account : String
  totalOutbound : Int
  blackOutbound : Int
  totalPickup : Int
  blackPickup : Int
  totalPay : Int
  blackPay : Int
  blackOutboundRate : ℚ
  blackPickupRate : ℚ
  deriving Repr, DecidableEq

/-- Structure `AccountProvinceStats` from `types.ts`. -/
structure AccountProvinceStats where
  account : String
  province : String
  totalOutbound : Int
  blackOutbound : Int
  totalPickup : Int
  blackPickup : Int
  totalPay : Int
  blackPay : Int
  blackOutboundRate : ℚ
  blackPickupRate : ℚ
  deriving Repr, DecidableEq

/-- The anonymous six-counter accumulator object stored in the `Map` of
`calculateGroupStats`, `calculateProvinceStats` and `calculateAccountStats`. -/
structure Agg where
  totalOutbound : Int
  blackOutbound : Int
  totalPickup : Int
  blackPickup : Int
  totalPay : Int
  blackPay : Int
  deriving Repr, DecidableEq

/-- The all-zero accumulator used when a key is seen for the first time. -/
def Agg.zero : Agg := ⟨0, 0, 0, 0, 0, 0⟩

/-- One `Map.set` body: add the record's six counters to the accumulator. -/
def Agg.add (a : Agg) (r : BlacklistRecord) : Agg :=
  { totalOutbound := a.totalOutbound + r.total_outbound_count
    blackOutbound := a.blackOutbound + r.black_outbound_count
    totalPickup := a.totalPickup + r.total_pickup_count
    blackPickup := a.blackPickup + r.black_pickup_count
    totalPay := a.totalPay + r.total_pay_count
    blackPay := a.blackPay + r.black_pay_count }

/-- Embedding of `map.set(key, (map.get(key) || zero) + record)` on a JavaScript `Map`
embedded as an insertion-ordered association list: an existing key is
updated in place, a new key is appended at the end. -/
def bump (key : String) (r : BlacklistRecord) : List (String × Agg) → List (String × Agg)
  | [] => [(key, Agg.zero.add r)]
  | (k, v) :: rest =>
      if k = key then (k, v.add r) :: rest else (k, v) :: bump key r rest

/-- The grouping pass shared by the group/province/account reductions:
`records.forEach(record => map.set(keyOf(record), existing + record))`. -/
def buildBuckets (keyOf : BlacklistRecord → String) (records : List BlacklistRecord) :
    List (String × Agg) :=
  records.foldl (fun m r => bump (keyOf r) r m) []

/-- Insert one element into a descending-ordered list, after every strictly
greater key and before every equal-or-smaller key (the placement a stable
sort gives an element standing left of the already-inserted ones). -/
def insertDesc (key : α → Int) (x : α) : List α → List α
  | [] => [x]
  | y :: ys => if key x < key y then y :: insertDesc key x ys else x :: y :: ys

/-- Stable descending sort embedding `Array.prototype.sort((a, b) =>
b.key - a.key)` (stable by ECMAScript 2019). -/
def sortDesc (key : α → Int) : List α → List α
  | [] => []
  | x :: xs => insertDesc key x (sortDesc key xs)

/-- The defaulting idiom `value || '未知'`. -/
def defaultStr (s : String) : String := if s = "" then "未知" else s

/-- Embedding of `calculateGroupStats` (basic-schema `dataProcessor.ts`, lines 77–114):
group by the `group` field verbatim, then finalize each bucket with the
outbound and pickup rates. No sort. -/
def calculateGroupStats (records : List BlacklistRecord) : List GroupStats :=
  (buildBuckets (fun r => r.group) records).map (fun b =>
    { group := b.1
      totalOutbound := b.2.totalOutbound
      blackOutbound := b.2.blackOutbound
      totalPickup := b.2.totalPickup
      blackPickup := b.2.blackPickup
      totalPay := b.2.totalPay
      blackPay := b.2.blackPay
      blackOutboundRate := rate b.2.blackOutbound b.2.totalOutbound
      blackPickupRate := rate b.2.blackPickup b.2.totalPickup })

/-- The `group ? records.filter(r => r.group === group) : records` filter of
`calculateProvinceStats`: a JavaScript string is falsy when empty, so a
`some ""` filter behaves as no filter. -/
def provFiltered (records : List BlacklistRecord) (group : Option String) :
    List BlacklistRecord :=
  match group with
  | some g => if g = "" then records else records.filter (fun r => r.group == g)
  | none => records

/-- The pre-sort row list of `calculateProvinceStats`:
`Array.from(provinceMap.entries()).map(...)`, in first-seen key order. -/
def provinceRows (records : List BlacklistRecord) (group : Option String) :
    List ProvinceStats :=
  (buildBuckets (fun r => defaultStr r.province) (provFiltered records group)).map (fun b =>
    { province := b.1
      totalOutbound := b.2.totalOutbound
      blackOutbound := b.2.blackOutbound
      totalPickup := b.2.totalPickup
      blackPickup := b.2.blackPickup
      totalPay := b.2.totalPay
      blackPay := b.2.blackPay
      blackOutboundRate := rate b.2.blackOutbound b.2.totalOutbound
      blackPickupRate := rate b.2.blackPickup b.2.totalPickup })

/-- Embedding of `calculateProvinceStats` (`dataProcessor.ts`, lines 116–157): optional
group filter, group by `province || '未知'`, finalize, sort descending by
`totalOutbound`. -/
def calculateProvinceStats (records : List BlacklistRecord) (group : Option String) :
    List ProvinceStats :=
  sortDesc (fun s => s.totalOutbound) (provinceRows records group)

/-- The pre-sort row list of `calculateAccountStats`. -/
def accountRows (records : List BlacklistRecord) : List AccountStats :=
  (buildBuckets (fun r => defaultStr r.account) records).map (fun b =>
    { account := b.1
      totalOutbound := b.2.totalOutbound
      blackOutbound := b.2.blackOutbound
      totalPickup := b.2.totalPickup
      blackPickup := b.2.blackPickup
      totalPay := b.2.totalPay
      blackPay := b.2.blackPay
      blackOutboundRate := rate b.2.blackOutbound b.2.totalOutbound
      blackPickupRate := rate b.2.blackPickup b.2.totalPickup })

/-- Embedding of `calculateAccountStats` (`dataProcessor.ts`, lines 159–198): group by
`account || '未知'`, finalize, sort descending by `totalOutbound`. -/
def calculateAccountStats (records : List BlacklistRecord) : List AccountStats :=
  sortDesc (fun s => s.totalOutbound) (accountRows records)

/-- The accumulator object stored in `accountProvinceMap`: displayed
(account, province) pair plus the six running sums. -/
structure APAgg where
  account : String
  province : String
  sums : Agg
  deriving Repr, DecidableEq

/-- The composite key of `calculateAccountProvinceStats`:
`` `${record.account}|${record.province || '未知'}` `` — the account
component is the raw field, only the province component is defaulted. -/
def apKey (r : BlacklistRecord) : String :=
  r.account ++ "|" ++ defaultStr r.province

/-- One loop iteration of `calculateAccountProvinceStats`: look up the key,
default to zero sums, and store defaulted display fields alongside the
updated sums. -/
def apBump (r : BlacklistRecord) : List (String × APAgg) → List (String × APAgg)
  | [] => [(apKey r, ⟨defaultStr r.account, defaultStr r.province, Agg.zero.add r⟩)]
  | (k, v) :: rest =>
      if k = apKey r then
        (k, ⟨defaultStr r.account, defaultStr r.province, v.sums.add r⟩) :: rest
      else
        (k, v) :: apBump r rest

/-- The `account ? records.filter(r => r.account === account) : records`
filter of `calculateAccountProvinceStats` (empty string is falsy). -/
def apFiltered (records : List BlacklistRecord) (account : Option String) :
    List BlacklistRecord :=
  match account with
  | some a => if a = "" then records else records.filter (fun r => r.account == a)
  | none => records

/-- The grouping pass of `calculateAccountProvinceStats`. -/
def apBuckets (records : List BlacklistRecord) (account : Option String) :
    List (String × APAgg) :=
  (apFiltered records account).foldl (fun m r => apBump r m) []

/-- The pre-sort row list of `calculateAccountProvinceStats`:
`Array.from(accountProvinceMap.values()).map(...)`. -/
def apRows (records : List BlacklistRecord) (account : Option String) :
    List AccountProvinceStats :=
  (apBuckets records account).map (fun b =>
    { account := b.2.account
      province := b.2.province
      totalOutbound := b.2.sums.totalOutbound
      blackOutbound := b.2.sums.blackOutbound
      totalPickup := b.2.sums.totalPickup
      blackPickup := b.2.sums.blackPickup
      totalPay := b.2.sums.totalPay
      blackPay := b.2.sums.blackPay
      blackOutboundRate := rate b.2.sums.blackOutbound b.2.sums.totalOutbound
      blackPickupRate := rate b.2.sums.blackPickup b.2.sums.totalPickup })

/-- Embedding of `calculateAccountProvinceStats` (extended `dataProcessor.ts`, lines
445–491). -/
def calculateAccountProvinceStats (records : List BlacklistRecord)
    (account : Option String) : List AccountProvinceStats :=
  sortDesc (fun s => s.totalOutbound) (apRows records account)

/-- The mutable accumulator variables of `calculateOverallStats` (extended
schema: eight counters). -/
structure OverallAcc where
  totalOutbound : Int
  blackOutbound : Int
  totalPickup : Int
  blackPickup : Int
  totalPay : Int
  blackPay : Int
  totalComplain : Int
  blackComplain : Int
  deriving Repr, DecidableEq

/-- One `records.forEach` iteration of `calculateOverallStats`. -/
def OverallAcc.add (a : OverallAcc) (r : BlacklistRecord) : OverallAcc :=
  { totalOutbound := a.totalOutbound + r.total_outbound_count
    blackOutbound := a.blackOutbound + r.black_outbound_count
    totalPickup := a.totalPickup + r.total_pickup_count
    blackPickup := a.blackPickup + r.black_pickup_count
    totalPay := a.totalPay + r.total_pay_count
    blackPay := a.blackPay + r.black_pay_count
    totalComplain := a.totalComplain + r.total_complain_count
    blackComplain := a.blackComplain + r.black_complain_count }

/-- Embedding of `calculateOverallStats` (extended `dataProcessor.ts`, lines 291–329):
sum all eight counters in one pass, then compute the four derived rates. -/
def calculateOverallStats (records : List BlacklistRecord) : OverallStats :=
  let s := records.foldl OverallAcc.add ⟨0, 0, 0, 0, 0, 0, 0, 0⟩
  { totalOutbound := s.totalOutbound
    blackOutbound := s.blackOutbound
    totalPickup := s.totalPickup
    blackPickup := s.blackPickup
    totalPay := s.totalPay
    blackPay := s.blackPay
    totalComplain := s.totalComplain
    blackComplain := s.blackComplain
    blackOutboundRate := rate s.blackOutbound s.totalOutbound
    blackPickupRate := rate s.blackPickup s.totalPickup
    blackPayRate := rate s.blackPay s.totalPay
    blackComplainRate := rate s.blackComplain s.totalComplain }

/-- True when the first non-whitespace character of the string is a minus
sign (the only way `parseInt` produces a negative value). -/
def hasLeadingMinus (s : String) : Bool :=
  (s.toList.dropWhile (fun c => c.isWhitespace)).headD ' ' == '-' 

/-- Greedily read a run of digits accepted by `isD`; `none` when the run is
empty (`parseInt` then returns `NaN`). -/
def readDigits (isD : Char → Bool) (val : Char → Nat) (base : Nat)
    (cs : List Char) : Option Nat :=
  let ds := cs.takeWhile isD
  if ds = [] then none else some (ds.foldl (fun n c => n * base + val c) 0)

/-- Hexadecimal digit test for `parseInt`'s `0x` form. -/
def isHexDigit (c : Char) : Bool :=
  c.isDigit || ('a' ≤ c && c ≤ 'f') || ('A' ≤ c && c ≤ 'F')

/-- Value of a hexadecimal digit. -/
def hexVal (c : Char) : Nat :=
  if c.isDigit then c.toNat - 48
  else if 'a' ≤ c && c ≤ 'f' then c.toNat - 97 + 10
  else c.toNat - 65 + 10

/-- JavaScript `parseInt(s)` with no radix argument: skip leading
whitespace, read an optional sign, then either a `0x`/`0X` hexadecimal
literal or a run of decimal digits, ignoring any trailing garbage.
`none` stands for `NaN`. -/
def jsParseInt (s : String) : Option Int :=
  let cs := s.toList.dropWhile (fun c => c.isWhitespace)
  let sign : Int := if cs.headD ' ' = '-' then -1 else 1
  let rest : List Char :=
    if cs.headD ' ' = '-' ∨ cs.headD ' ' = '+' then cs.tail else cs
  let body : Option Nat :=
    if rest.headD ' ' = '0' ∧ (rest.tail.headD ' ' = 'x' ∨ rest.tail.headD ' ' = 'X') then
      readDigits isHexDigit hexVal 16 rest.tail.tail
    else readDigits Char.isDigit (fun d => d.toNat - 48) 10 rest
  body.map (fun v => sign * Int.ofNat v)

/-- The numeric coercion `parseInt(field) || 0` applied to a field that may
be absent (`none` models an `undefined` property, whose `parseInt` is
`NaN`); `NaN` and `0` are both falsy, so both yield `0`. -/
def coerceCounter (field : Option String) : Int :=
  match field with
  | none => 0
  | some s => (jsParseInt s).getD 0

/-- The string coercion `field || dflt` (absent and empty are falsy). -/
def coerceStr (field : Option String) (dflt : String) : String :=
  match field with
  | none => dflt
  | some s => if s = "" then dflt else s

/-- The `CSVRow` interface of the extended `dataProcessor.ts`: one
header-matched row as delivered by `Papa.parse`; a field is `none` when its
column is missing from the file. -/
structure CSVRow where
  dt : Option String
  account : Option String
  province : Option String
  group : Option String
  total_outbound_count : Option String
  black_outbound_count : Option String
  total_pickup_count : Option String
  black_pickup_count : Option String
  total_pay_count : Option String
  black_pay_count : Option String
  total_complain_count : Option String
  black_complain_count : Option String
  deriving Repr, DecidableEq

/-- The part of `Papa.parse`'s result that `parseCSVData` inspects: the
structural-error list and the (possibly absent) row array. `Papa.parse`
itself is an external library, so `parseCSVData` is modelled as a function
of this result, quantified over all possible outputs. -/
structure PapaResult where
  errors : List String
  data : Option (List CSVRow)
  deriving Repr, DecidableEq

/-- The per-row body of `parseCSVData`'s `result.data.map(...)`. -/
def coerceRow (row : CSVRow) : BlacklistRecord :=
  { dt := coerceStr row.dt ""
    account := coerceStr row.account "未知"
    province := coerceStr row.province "未知"
    group := coerceStr row.group ""
    total_outbound_count := coerceCounter row.total_outbound_count
    black_outbound_count := coerceCounter row.black_outbound_count
    total_pickup_count := coerceCounter row.total_pickup_count
    black_pickup_count := coerceCounter row.black_pickup_count
    total_pay_count := coerceCounter row.total_pay_count
    black_pay_count := coerceCounter row.black_pay_count
    total_complain_count := coerceCounter row.total_complain_count
    black_complain_count := coerceCounter row.black_complain_count }

/-- Embedding of `parseCSVData` (extended `dataProcessor.ts`, lines 264–289): an empty
record list on any structural error or missing data array, otherwise the
coerced rows in order. -/
def parseCSVData (input : PapaResult) : List BlacklistRecord :=
  if input.errors.length > 0 ∨ input.data = none then []
  else (input.data.getD []).map coerceRow

/-- Structure `UploadedFile` as consumed by `handleUpload`: a display name and the
file content, the latter represented by its `Papa.parse` result. -/
structure UploadedFile where
  name : String
  content : PapaResult
  deriving Repr, DecidableEq

/-- Structure `BatchFileResult` from `types.ts`. -/
structure BatchFileResult where
  fileName : String
  stats : OverallStats
  rawData : List BlacklistRecord
  deriving Repr, DecidableEq

/-- Embedding of `file.name.replace(/\.csv$/i, '')`: strip one trailing `.csv`
extension, case-insensitively. -/
def stripCsvExt (name : String) : String :=
  if (name.takeRight 4).toLower = ".csv" then name.dropRight 4 else name

/-- The observable outcome of the batch branch of `handleUpload`: the
zero-file early return does nothing, an all-failed batch raises the
"no valid CSV data" alert, otherwise the collected results are stored. -/
inductive BatchOutcome where
  | earlyReturn : BatchOutcome
  | invalid : BatchOutcome
  | success : List BatchFileResult → BatchOutcome
  deriving Repr, DecidableEq

/-- The batch branch of `handleUpload` (`App.tsx`, lines 117–140): an early
return on an empty file list; otherwise parse each file, keep one
`BatchFileResult` per file with a non-empty record list (in input order),
and report the batch invalid when no file produced records. -/
def handleUploadBatch (files : List UploadedFile) : BatchOutcome :=
  if files.length = 0 then .earlyReturn
  else
    let results := files.foldl (fun acc file =>
      let records := parseCSVData file.content
      if records.length > 0 then
        acc ++ [{ fileName := stripCsvExt file.name
                  stats := calculateOverallStats records
                  rawData := records }]
      else acc) []
    if results.length = 0 then .invalid else .success results

/-- The claim's description of the batch result, as a `filterMap`: exactly
one entry per file whose content parses to a non-empty record list, in
input order. -/
def batchResults (files : List UploadedFile) : List BatchFileResult :=
  files.filterMap (fun file =>
    let records := parseCSVData file.content
    if records.length > 0 then
      some { fileName := stripCsvExt file.name
             stats := calculateOverallStats records
             rawData := records }
    else none)

/-! ## Summation lemmas for the overall reduction -/

/-- Folding `OverallAcc.add` over the records adds, to every accumulator
field, the sum of the corresponding record counter. -/
theorem overall_foldl_spec (records : List BlacklistRecord) (init : OverallAcc) :
    records.foldl OverallAcc.add init =
      { totalOutbound := init.totalOutbound + (records.map (fun r => r.total_outbound_count)).sum
        blackOutbound := init.blackOutbound + (records.map (fun r => r.black_outbound_count)).sum
        totalPickup := init.totalPickup + (records.map (fun r => r.total_pickup_count)).sum
        blackPickup := init.blackPickup + (records.map (fun r => r.black_pickup_count)).sum
        totalPay := init.totalPay + (records.map (fun r => r.total_pay_count)).sum
        blackPay := init.blackPay + (records.map (fun r => r.black_pay_count)).sum
        totalComplain := init.totalComplain + (records.map (fun r => r.total_complain_count)).sum
        blackComplain := init.blackComplain + (records.map (fun r => r.black_complain_count)).sum } := by
  induction records generalizing init with
  | nil => simp
  | cons r rs ih =>
      simp only [List.foldl_cons, List.map_cons, List.sum_cons, ih, OverallAcc.add]
      simp only [OverallAcc.mk.injEq]
      refine ⟨?_, ?_, ?_, ?_, ?_, ?_, ?_, ?_⟩ <;> ring

/-- C1: for every list of records, each summed counter returned by
`calculateOverallStats` equals the sum of the corresponding counter field
over all records — all eight counters of the extended schema. -/
theorem c1_overall_sum_invariant (records : List BlacklistRecord) :
    (calculateOverallStats records).totalOutbound
        = (records.map (fun r => r.total_outbound_count)).sum
    ∧ (calculateOverallStats records).blackOutbound
        = (records.map (fun r => r.black_outbound_count)).sum
    ∧ (calculateOverallStats records).totalPickup
        = (records.map (fun r => r.total_pickup_count)).sum
    ∧ (calculateOverallStats records).blackPickup
        = (records.map (fun r => r.black_pickup_count)).sum
    ∧ (calculateOverallStats records).totalPay
        = (records.map (fun r => r.total_pay_count)).sum
    ∧ (calculateOverallStats records).blackPay
        = (records.map (fun r => r.black_pay_count)).sum
    ∧ (calculateOverallStats records).totalComplain
        = (records.map (fun r => r.total_complain_count)).sum
    ∧ (calculateOverallStats records).blackComplain
        = (records.map (fun r => r.black_complain_count)).sum := by
  simp [calculateOverallStats, overall_foldl_spec]

/-! ## Summation lemmas for the grouped reductions -/

/-- Step lemma: `bump` adds the record's outbound counter to exactly one bucket. -/
theorem bump_sum_totalOutbound (key : String) (r : BlacklistRecord)
    (m : List (String × Agg)) :
    ((bump key r m).map (fun b => b.2.totalOutbound)).sum
      = ((m.map (fun b => b.2.totalOutbound)).sum) + r.total_outbound_count := by
  induction m with
  | nil => simp [bump, Agg.add, Agg.zero]
  | cons e rest ih =>
      by_cases h : e.1 = key
      · simp only [bump, h, if_pos rfl]
        cases e with
        | mk k v => simp [Agg.add]; ring
      · cases e with
        | mk k v =>
            simp only [bump] at *
            simp only [if_neg h, List.map_cons, List.sum_cons, ih]
            ring

/-- Folding `bump` over the records adds every record's outbound counter
to the total over all buckets. -/
theorem buildBuckets_sum_totalOutbound (keyOf : BlacklistRecord → String) :
    ∀ (records : List BlacklistRecord) (m : List (String × Agg)),
      (((records.foldl (fun m r => bump (keyOf r) r m) m)).map
          (fun b => b.2.totalOutbound)).sum
        = (m.map (fun b => b.2.totalOutbound)).sum
            + (records.map (fun r => r.total_outbound_count)).sum := by
  intro records
  induction records with
  | nil => intro m; simp
  | cons r rs ih =>
      intro m
      simp only [List.foldl_cons, List.map_cons, List.sum_cons, ih,
        bump_sum_totalOutbound]
      ring

/-- Step lemma: `apBump` adds the record's outbound counter to exactly one bucket. -/
theorem apBump_sum_totalOutbound (r : BlacklistRecord) (m : List (String × APAgg)) :
    ((apBump r m).map (fun b => b.2.sums.totalOutbound)).sum
      = ((m.map (fun b => b.2.sums.totalOutbound)).sum) + r.total_outbound_count := by
  induction m with
  | nil => simp [apBump, Agg.add, Agg.zero]
  | cons e rest ih =>
      by_cases h : e.1 = apKey r
      · simp only [apBump, h, if_pos rfl]
        cases e with
        | mk k v => simp [Agg.add]; ring
      · cases e with
        | mk k v =>
            simp only [apBump] at *
            simp only [if_neg h, List.map_cons, List.sum_cons, ih]
            ring

/-- Folding `apBump` adds every record's outbound counter to the total
over all buckets. -/
theorem apFold_sum_totalOutbound :
    ∀ (records : List BlacklistRecord) (m : List (String × APAgg)),
      (((records.foldl (fun m r => apBump r m) m)).map
          (fun b => b.2.sums.totalOutbound)).sum
        = (m.map (fun b => b.2.sums.totalOutbound)).sum
            + (records.map (fun r => r.total_outbound_count)).sum := by
  intro records
  induction records with
  | nil => intro m; simp
  | cons r rs ih =>
      intro m
      simp only [List.foldl_cons, List.map_cons, List.sum_cons, ih,
        apBump_sum_totalOutbound]
      ring

/-! ## Permutation and order lemmas for the stable descending sort -/

/-- Inserting an element is a permutation of consing it. -/
theorem insertDesc_perm (key : α → Int) (x : α) (l : List α) :
    List.Perm (insertDesc key x l) (x :: l) := by
  induction l with
  | nil => simp [insertDesc]
  | cons y ys ih =>
      by_cases h : key x < key y
      · simp only [insertDesc, if_pos h]
        exact (ih.cons y).trans (List.Perm.swap x y ys)
      · simp [insertDesc, if_neg h]

/-- The stable descending sort is a permutation of its input. -/
theorem sortDesc_perm (key : α → Int) (l : List α) : List.Perm (sortDesc key l) l := by
  induction l with
  | nil => simp [sortDesc]
  | cons x xs ih => exact (insertDesc_perm key x (sortDesc key xs)).trans (ih.cons x)

/-- Sorting does not change the sum of any projection of the rows. -/
theorem sum_map_sortDesc (key : α → Int) (f : α → Int) (l : List α) :
    ((sortDesc key l).map f).sum = (l.map f).sum :=
  ((sortDesc_perm key l).map f).sum_eq

/-- The total outbound over all `calculateGroupStats` rows is the total
over all records. -/
theorem groupRows_sum (records : List BlacklistRecord) :
    ((calculateGroupStats records).map (fun s => s.totalOutbound)).sum
      = (records.map (fun r => r.total_outbound_count)).sum := by
  have h := buildBuckets_sum_totalOutbound (fun r => r.group) records []
  simp only [calculateGroupStats, List.map_map, buildBuckets] at *
  simpa [Function.comp] using h

/-- The total outbound over all `provinceRows` is the total over the
filtered records. -/
theorem provinceRows_sum (records : List BlacklistRecord) (g : Option String) :
    ((provinceRows records g).map (fun s => s.totalOutbound)).sum
      = ((provFiltered records g).map (fun r => r.total_outbound_count)).sum := by
  have h := buildBuckets_sum_totalOutbound (fun r => defaultStr r.province)
    (provFiltered records g) []
  simp only [provinceRows, List.map_map, buildBuckets] at *
  simpa [Function.comp] using h

/-- The total outbound over all `accountRows` is the total over all
records. -/
theorem accountRows_sum (records : List BlacklistRecord) :
    ((accountRows records).map (fun s => s.totalOutbound)).sum
      = (records.map (fun r => r.total_outbound_count)).sum := by
  have h := buildBuckets_sum_totalOutbound (fun r => defaultStr r.account) records []
  simp only [accountRows, List.map_map, buildBuckets] at *
  simpa [Function.comp] using h

/-- The total outbound over all `apRows` is the total over the filtered
records. -/
theorem apRows_sum (records : List BlacklistRecord) (a : Option String) :
    ((apRows records a).map (fun s => s.totalOutbound)).sum
      = ((apFiltered records a).map (fun r => r.total_outbound_count)).sum := by
  have h := apFold_sum_totalOutbound (apFiltered records a) []
  simp only [apRows, apBuckets, List.map_map] at *
  simpa [Function.comp] using h

/-- The overall reduction's summed outbound counter, as a list sum. -/
theorem overall_totalOutbound (records : List BlacklistRecord) :
    (calculateOverallStats records).totalOutbound
      = (records.map (fun r => r.total_outbound_count)).sum := by
  simp [calculateOverallStats, overall_foldl_spec]

/-- C2: for every list of records and every grouping dimension invoked
without a filter, the sum of `totalOutbound` over all returned rows equals
`calculateOverallStats(records).totalOutbound` — grouping neither drops
nor double-counts any record. -/
theorem c2_partition_invariant (records : List BlacklistRecord) :
    ((calculateGroupStats records).map (fun s => s.totalOutbound)).sum
        = (calculateOverallStats records).totalOutbound
    ∧ ((calculateProvinceStats records none).map (fun s => s.totalOutbound)).sum
        = (calculateOverallStats records).totalOutbound
    ∧ ((calculateAccountStats records).map (fun s => s.totalOutbound)).sum
        = (calculateOverallStats records).totalOutbound
    ∧ ((calculateAccountProvinceStats records none).map (fun s => s.totalOutbound)).sum
        = (calculateOverallStats records).totalOutbound := by
  refine ⟨?_, ?_, ?_, ?_⟩
  · rw [groupRows_sum, overall_totalOutbound]
  · rw [calculateProvinceStats, sum_map_sortDesc, provinceRows_sum,
      overall_totalOutbound]
    rfl
  · rw [calculateAccountStats, sum_map_sortDesc, accountRows_sum,
      overall_totalOutbound]
  · rw [calculateAccountProvinceStats, sum_map_sortDesc, apRows_sum,
      overall_totalOutbound]
    rfl

/-- Membership in an insertion. -/
theorem mem_insertDesc (key : α → Int) (x z : α) (l : List α) :
    z ∈ insertDesc key x l ↔ z = x ∨ z ∈ l := by
  rw [(insertDesc_perm key x l).mem_iff, List.mem_cons]

/-- Insertion preserves the descending-sorted property. -/
theorem insertDesc_pairwise (key : α → Int) (x : α) (l : List α)
    (h : List.Pairwise (fun a b => key b ≤ key a) l) :
    List.Pairwise (fun a b => key b ≤ key a) (insertDesc key x l) := by
  induction l with
  | nil => simp [insertDesc]
  | cons y ys ih =>
      rcases List.pairwise_cons.mp h with ⟨hy, hys⟩
      by_cases hxy : key x < key y
      · simp only [insertDesc, if_pos hxy]
        refine List.pairwise_cons.mpr ⟨?_, ih hys⟩
        intro z hz
        rcases (mem_insertDesc key x z ys).mp hz with hzx | hzm
        · subst hzx; exact le_of_lt hxy
        · exact hy z hzm
      · simp only [insertDesc, if_neg hxy]
        push_neg at hxy
        refine List.pairwise_cons.mpr ⟨?_, h⟩
        intro z hz
        rcases List.mem_cons.mp hz with hzy | hzm
        · subst hzy; exact hxy
        · exact le_trans (hy z hzm) hxy

/-- The stable descending sort produces a descending-sorted list. -/
theorem sortDesc_pairwise (key : α → Int) (l : List α) :
    List.Pairwise (fun a b => key b ≤ key a) (sortDesc key l) := by
  induction l with
  | nil => simp [sortDesc]
  | cons x xs ih => exact insertDesc_pairwise key x (sortDesc key xs) ih

/-- Filtering the rows with one fixed key value commutes with insertion:
the inserted element lands before every equal-key element already present. -/
theorem filter_insertDesc (key : α → Int) (t : Int) (x : α) (l : List α) :
    (insertDesc key x l).filter (fun a => key a == t)
      = (x :: l).filter (fun a => key a == t) := by
  induction l with
  | nil => rfl
  | cons y ys ih =>
      by_cases hxy : key x < key y
      · simp only [insertDesc, if_pos hxy]
        by_cases hx : key x = t
        · have hy : ¬ key y = t := by omega
          simp [List.filter_cons, hx, hy, ih]
        · by_cases hy : key y = t <;> simp [List.filter_cons, hx, hy, ih]
      · simp [insertDesc, if_neg hxy]

/-- Stability of the descending sort: among the rows sharing one
`totalOutbound` value, the sorted output lists them in exactly the order
the input did. -/
theorem filter_sortDesc (key : α → Int) (t : Int) (l : List α) :
    (sortDesc key l).filter (fun a => key a == t)
      = l.filter (fun a => key a == t) := by
  induction l with
  | nil => rfl
  | cons x xs ih =>
      rw [sortDesc, filter_insertDesc]
      by_cases hx : key x = t <;> simp [List.filter_cons, hx, ih]

/-- The order in which a JavaScript `Map` enumerates its keys: each key at
the position of its first occurrence in the inserted sequence. -/
def firstSeen (ks : List String) : List String :=
  ks.foldl (fun acc k => if k ∈ acc then acc else acc ++ [k]) []

/-- Step lemma: `bump` keeps the key list unchanged for a known key and appends an
unknown key at the end. -/
theorem bump_keys (key : String) (r : BlacklistRecord) (m : List (String × Agg)) :
    (bump key r m).map Prod.fst
      = if key ∈ m.map Prod.fst then m.map Prod.fst else m.map Prod.fst ++ [key] := by
  induction m with
  | nil => simp [bump]
  | cons e rest ih =>
      cases e with
      | mk k v =>
          by_cases h : k = key
          · simp [bump, h]
          · have hne : ¬ key = k := fun hh => h hh.symm
            by_cases hmem : key ∈ rest.map Prod.fst <;>
              simp [bump, h, ih, hne, hmem]

/-- The bucket keys produced by the grouping fold are the record keys in
first-seen order. -/
theorem buildBuckets_keys (keyOf : BlacklistRecord → String) :
    ∀ (records : List BlacklistRecord) (m : List (String × Agg)),
      ((records.foldl (fun m r => bump (keyOf r) r m) m)).map Prod.fst
        = records.foldl
            (fun acc r => if keyOf r ∈ acc then acc else acc ++ [keyOf r])
            (m.map Prod.fst) := by
  intro records
  induction records with
  | nil => intro m; rfl
  | cons r rs ih =>
      intro m
      simp only [List.foldl_cons, ih, bump_keys]

/-- Consequently `buildBuckets` enumerates its buckets in first-seen key order. -/
theorem buildBuckets_keys_firstSeen (keyOf : BlacklistRecord → String)
    (records : List BlacklistRecord) :
    (buildBuckets keyOf records).map Prod.fst = firstSeen (records.map keyOf) := by
  rw [buildBuckets, buildBuckets_keys, firstSeen, List.foldl_map]
  rfl

/-- Step lemma: `apBump` keeps the key list unchanged for a known key and appends an
unknown key at the end. -/
theorem apBump_keys (r : BlacklistRecord) (m : List (String × APAgg)) :
    (apBump r m).map Prod.fst
      = if apKey r ∈ m.map Prod.fst then m.map Prod.fst
        else m.map Prod.fst ++ [apKey r] := by
  induction m with
  | nil => simp [apBump]
  | cons e rest ih =>
      cases e with
      | mk k v =>
          by_cases h : k = apKey r
          · simp [apBump, h]
          · have hne : ¬ apKey r = k := fun hh => h hh.symm
            by_cases hmem : apKey r ∈ rest.map Prod.fst <;>
              simp [apBump, h, ih, hne, hmem]

/-- The account×province bucket keys are the composite keys in first-seen
order. -/
theorem apBuckets_keys_firstSeen (records : List BlacklistRecord)
    (a : Option String) :
    (apBuckets records a).map Prod.fst
      = firstSeen ((apFiltered records a).map apKey) := by
  rw [apBuckets, firstSeen, List.foldl_map]
  generalize apFiltered records a = rs
  suffices h : ∀ (rs : List BlacklistRecord) (m : List (String × APAgg)),
      ((rs.foldl (fun m r => apBump r m) m)).map Prod.fst
        = rs.foldl (fun acc r => if apKey r ∈ acc then acc else acc ++ [apKey r])
            (m.map Prod.fst) by
    simpa using h rs []
  intro rs
  induction rs with
  | nil => intro m; rfl
  | cons r rest ih =>
      intro m
      simp only [List.foldl_cons, ih, apBump_keys]

/-- C4: for every record list and any filter argument, the rows returned by
the province, account and account×province reductions are sorted descending
by `totalOutbound`, and the sort is stable: among rows with one and the
same `totalOutbound`, the output preserves the order of the pre-sort row
lists, which themselves enumerate grouping keys in first-seen input order. -/
theorem c4_descending_stable (records : List BlacklistRecord) (g a : Option String) :
    (List.Pairwise (fun x y => y.totalOutbound ≤ x.totalOutbound)
        (calculateProvinceStats records g)
      ∧ (∀ t : Int,
          (calculateProvinceStats records g).filter (fun s => s.totalOutbound == t)
            = (provinceRows records g).filter (fun s => s.totalOutbound == t))
      ∧ (provinceRows records g).map (fun s => s.province)
          = firstSeen ((provFiltered records g).map (fun r => defaultStr r.province)))
    ∧ (List.Pairwise (fun x y => y.totalOutbound ≤ x.totalOutbound)
        (calculateAccountStats records)
      ∧ (∀ t : Int,
          (calculateAccountStats records).filter (fun s => s.totalOutbound == t)
            = (accountRows records).filter (fun s => s.totalOutbound == t))
      ∧ (accountRows records).map (fun s => s.account)
          = firstSeen (records.map (fun r => defaultStr r.account)))
    ∧ (List.Pairwise (fun x y => y.totalOutbound ≤ x.totalOutbound)
        (calculateAccountProvinceStats records a)
      ∧ (∀ t : Int,
          (calculateAccountProvinceStats records a).filter (fun s => s.totalOutbound == t)
            = (apRows records a).filter (fun s => s.totalOutbound == t))
      ∧ (apBuckets records a).map Prod.fst
          = firstSeen ((apFiltered records a).map apKey)) := by
  refine ⟨⟨?_, ?_, ?_⟩, ⟨?_, ?_, ?_⟩, ⟨?_, ?_, ?_⟩⟩
  · exact sortDesc_pairwise _ _
  · intro t; exact filter_sortDesc _ t _
  · rw [provinceRows, ← buildBuckets_keys_firstSeen, List.map_map]
    rfl
  · exact sortDesc_pairwise _ _
  · intro t; exact filter_sortDesc _ t _
  · rw [accountRows, ← buildBuckets_keys_firstSeen, List.map_map]
    rfl
  · exact sortDesc_pairwise _ _
  · intro t; exact filter_sortDesc _ t _
  · exact apBuckets_keys_firstSeen records a

/-! ## The province reduction's group filter -/

/-- A sample record whose `group` is `"a"`, used to exhibit the behavior of
an empty-string group filter. -/
def crGroupA : BlacklistRecord := ⟨"d", "acct", "p", "a", 0, 0, 0, 0, 0, 0, 0, 0⟩

/-- C5, counterexample: `calculateProvinceStats` invoked with the
empty-string group filter does NOT restrict attention to records whose
`group` equals `""` — the record with `group = "a"` still participates, so
the result differs from aggregating the records whose group is `""`. -/
theorem c5_counterexample :
    calculateProvinceStats [crGroupA] (some "")
      ≠ calculateProvinceStats (List.filter (fun r => r.group == "") [crGroupA]) none := by
  intro h
  have hlen := congrArg List.length h
  revert hlen
  decide

/-- C5, amended: for every non-empty group value `g`, the province
reduction with filter `g` aggregates exactly the records whose `group`
equals `g`; the empty-string filter, being falsy in JavaScript, is treated
as no filter at all, so every record participates. -/
theorem c5_group_filter (records : List BlacklistRecord) (g : String) (hg : g ≠ "") :
    calculateProvinceStats records (some g)
        = calculateProvinceStats (records.filter (fun r => r.group == g)) none
    ∧ calculateProvinceStats records (some "")
        = calculateProvinceStats records none := by
  constructor
  · simp [calculateProvinceStats, provinceRows, provFiltered, hg]
  · simp [calculateProvinceStats, provinceRows, provFiltered]

/-- Witness for C5 at a concrete input: the filter `"a"` keeps the record
with group `"a"`. -/
theorem c5_group_filter_witness :
    ("a" : String) ≠ ""
      ∧ calculateProvinceStats [crGroupA] (some "a")
          = calculateProvinceStats ([crGroupA].filter (fun r => r.group == "a")) none :=
  ⟨by decide, (c5_group_filter [crGroupA] "a" (by decide)).1⟩

/-! ## The account×province reduction's grouping key -/

/-- Every entry of `apBump r m` was either already in `m` or carries the
defaulted display fields of `r`. -/
theorem mem_apBump (r : BlacklistRecord) (m : List (String × APAgg))
    (e : String × APAgg) (he : e ∈ apBump r m) :
    e ∈ m ∨ (e.2.account = defaultStr r.account ∧ e.2.province = defaultStr r.province) := by
  induction m with
  | nil =>
      simp only [apBump, List.mem_singleton] at he
      subst he
      exact Or.inr ⟨rfl, rfl⟩
  | cons p rest ih =>
      cases p with
      | mk k v =>
          by_cases h : k = apKey r
          · simp only [apBump, if_pos h, List.mem_cons] at he
            rcases he with he | he
            · subst he; exact Or.inr ⟨rfl, rfl⟩
            · exact Or.inl (List.mem_cons_of_mem _ he)
          · simp only [apBump, if_neg h, List.mem_cons] at he
            rcases he with he | he
            · subst he; exact Or.inl (List.mem_cons_self _ _)
            · rcases ih he with hm | hf
              · exact Or.inl (List.mem_cons_of_mem _ hm)
              · exact Or.inr hf

/-- Every bucket produced by the account×province fold carries the
defaulted display fields of some processed record. -/
theorem apFold_fields :
    ∀ (rs : List BlacklistRecord) (m : List (String × APAgg)) (e : String × APAgg),
      e ∈ rs.foldl (fun m r => apBump r m) m →
      e ∈ m ∨ ∃ r ∈ rs,
        e.2.account = defaultStr r.account ∧ e.2.province = defaultStr r.province := by
  intro rs
  induction rs with
  | nil => intro m e he; exact Or.inl he
  | cons r rest ih =>
      intro m e he
      simp only [List.foldl_cons] at he
      rcases ih (apBump r m) e he with hm | hf
      · rcases mem_apBump r m e hm with h1 | h2
        · exact Or.inl h1
        · exact Or.inr ⟨r, List.mem_cons_self _ _, h2⟩
      · rcases hf with ⟨x, hx, hfx⟩
        exact Or.inr ⟨x, List.mem_cons_of_mem _ hx, hfx⟩

/-- A record whose `account` is the empty string. -/
def crEmptyAcct : BlacklistRecord := ⟨"d", "", "p", "g", 0, 0, 0, 0, 0, 0, 0, 0⟩

/-- A record whose `account` is the literal sentinel `"未知"`. -/
def crUnknownAcct : BlacklistRecord := ⟨"d", "未知", "p", "g", 0, 0, 0, 0, 0, 0, 0, 0⟩

/-- C6, counterexample: a record with empty `account` and a record with
`account = "未知"` (same province) do NOT land in the same bucket — the map
key uses the raw account — even though both output rows display the
identical defaulted pair `("未知", "p")`. -/
theorem c6_counterexample :
    (calculateAccountProvinceStats [crEmptyAcct, crUnknownAcct] none).map
        (fun s => (s.account, s.province)) = [("未知", "p"), ("未知", "p")]
    ∧ (calculateAccountProvinceStats [crEmptyAcct, crUnknownAcct] none).length ≠ 1 := by
  constructor
  · decide
  · decide

/-- C6, amended: `calculateAccountProvinceStats` groups by the composite
key `apKey` — raw account joined with the province defaulted to `"未知"`;
only the province component is defaulted in the key, so empty-account and
`"未知"`-account records occupy distinct buckets. There is one output row
per distinct composite key, and each row's displayed account and province
fields are the independently defaulted fields of a contributing record. -/
theorem c6_composite_key (records : List BlacklistRecord) (a : Option String) :
    (calculateAccountProvinceStats records a).length
        = (firstSeen ((apFiltered records a).map apKey)).length
    ∧ ∀ s ∈ calculateAccountProvinceStats records a,
        ∃ r ∈ apFiltered records a,
          s.account = defaultStr r.account ∧ s.province = defaultStr r.province := by
  constructor
  · have h1 := (sortDesc_perm (fun s => s.totalOutbound) (apRows records a)).length_eq
    have h2 := congrArg List.length (apBuckets_keys_firstSeen records a)
    simp only [List.length_map] at h2
    rw [calculateAccountProvinceStats, h1, apRows, List.length_map, h2]
  · intro s hs
    rw [calculateAccountProvinceStats] at hs
    have hs2 : s ∈ apRows records a :=
      (sortDesc_perm (fun x => x.totalOutbound) (apRows records a)).mem_iff.mp hs
    rw [apRows] at hs2
    rcases List.mem_map.mp hs2 with ⟨b, hb, rfl⟩
    rcases apFold_fields (apFiltered records a) [] b hb with hnil | ⟨r, hr, hfields⟩
    · exact absurd hnil (List.not_mem_nil b)
    · exact ⟨r, hr, hfields.1, hfields.2⟩

/-- A throwaway account×province row used only to take the head of a
concrete result list. -/
def apDummy : AccountProvinceStats := ⟨"", "", 0, 0, 0, 0, 0, 0, 0, 0⟩

/-- Witness for C6 at a concrete input: the single row produced for the
empty-account record displays the defaulted account `"未知"`. -/
theorem c6_composite_key_witness :
    ((calculateAccountProvinceStats [crEmptyAcct] none).headD apDummy)
        ∈ calculateAccountProvinceStats [crEmptyAcct] none
    ∧ ∃ r ∈ apFiltered [crEmptyAcct] none,
        ((calculateAccountProvinceStats [crEmptyAcct] none).headD apDummy).account
            = defaultStr r.account
        ∧ ((calculateAccountProvinceStats [crEmptyAcct] none).headD apDummy).province
            = defaultStr r.province :=
  ⟨by decide, (c6_composite_key [crEmptyAcct] none).2 _ (by decide)⟩

/-! ## Derived-rate fields carried by the reduction rows -/

/-- The derived-rate fields a `GroupStats` row actually carries, read off
the `GroupStats` interface in `types.ts`: the outbound and pickup rates
only. -/
def GroupStats.carriedRates (s : GroupStats) : List ℚ :=
  [s.blackOutboundRate, s.blackPickupRate]

/-- Modelled from the spec: the per-row derived rates claim C3 demands of a
grouped row — one rate for each (total, black) counter pair the row sums,
so outbound, pickup AND pay. -/
def specGroupRowRates (s : GroupStats) : List ℚ :=
  [rate s.blackOutbound s.totalOutbound,
   rate s.blackPickup s.totalPickup,
   rate s.blackPay s.totalPay]

/-- C3, counterexample: a group row sums three counter pairs but carries
only two rates — the pay rate demanded by the claim is absent from the
row, so the carried rates differ from the spec-demanded rates at this
concrete input. -/
theorem c3_counterexample :
    (calculateGroupStats [crGroupA]).map GroupStats.carriedRates
      ≠ (calculateGroupStats [crGroupA]).map specGroupRowRates := by
  decide

/-- Rates carried by a group row satisfy the derived-rate formula. -/
theorem mem_groupStats_rates (records : List BlacklistRecord) (s : GroupStats)
    (hs : s ∈ calculateGroupStats records) :
    s.blackOutboundRate = rate s.blackOutbound s.totalOutbound
    ∧ s.blackPickupRate = rate s.blackPickup s.totalPickup := by
  rw [calculateGroupStats] at hs
  rcases List.mem_map.mp hs with ⟨b, _, rfl⟩
  exact ⟨rfl, rfl⟩

/-- Rates carried by a province row satisfy the derived-rate formula. -/
theorem mem_provinceStats_rates (records : List BlacklistRecord) (g : Option String)
    (s : ProvinceStats) (hs : s ∈ calculateProvinceStats records g) :
    s.blackOutboundRate = rate s.blackOutbound s.totalOutbound
    ∧ s.blackPickupRate = rate s.blackPickup s.totalPickup := by
  rw [calculateProvinceStats] at hs
  have hs2 := (sortDesc_perm (fun x => x.totalOutbound) (provinceRows records g)).mem_iff.mp hs
  rw [provinceRows] at hs2
  rcases List.mem_map.mp hs2 with ⟨b, _, rfl⟩
  exact ⟨rfl, rfl⟩

/-- Rates carried by an account row satisfy the derived-rate formula. -/
theorem mem_accountStats_rates (records : List BlacklistRecord)
    (s : AccountStats) (hs : s ∈ calculateAccountStats records) :
    s.blackOutboundRate = rate s.blackOutbound s.totalOutbound
    ∧ s.blackPickupRate = rate s.blackPickup s.totalPickup := by
  rw [calculateAccountStats] at hs
  have hs2 := (sortDesc_perm (fun x => x.totalOutbound) (accountRows records)).mem_iff.mp hs
  rw [accountRows] at hs2
  rcases List.mem_map.mp hs2 with ⟨b, _, rfl⟩
  exact ⟨rfl, rfl⟩

/-- Rates carried by an account×province row satisfy the derived-rate
formula. -/
theorem mem_apStats_rates (records : List BlacklistRecord) (a : Option String)
    (s : AccountProvinceStats) (hs : s ∈ calculateAccountProvinceStats records a) :
    s.blackOutboundRate = rate s.blackOutbound s.totalOutbound
    ∧ s.blackPickupRate = rate s.blackPickup s.totalPickup := by
  rw [calculateAccountProvinceStats] at hs
  have hs2 := (sortDesc_perm (fun x => x.totalOutbound) (apRows records a)).mem_iff.mp hs
  rw [apRows] at hs2
  rcases List.mem_map.mp hs2 with ⟨b, _, rfl⟩
  exact ⟨rfl, rfl⟩

/-- C3, amended: the overall reduction computes a derived rate for each of
the four counter pairs it sums (outbound, pickup, pay and complain), while
the group, province, account and account×province rows carry only the
outbound and pickup rates, each satisfying
`rate = total > 0 ? (black / total) * 100 : 0`; those rows sum the pay
counters but emit no pay rate. -/
theorem c3_row_rates (records : List BlacklistRecord) (g a : Option String) :
    ((calculateOverallStats records).blackOutboundRate
        = rate (calculateOverallStats records).blackOutbound
            (calculateOverallStats records).totalOutbound
      ∧ (calculateOverallStats records).blackPickupRate
        = rate (calculateOverallStats records).blackPickup
            (calculateOverallStats records).totalPickup
      ∧ (calculateOverallStats records).blackPayRate
        = rate (calculateOverallStats records).blackPay
            (calculateOverallStats records).totalPay
      ∧ (calculateOverallStats records).blackComplainRate
        = rate (calculateOverallStats records).blackComplain
            (calculateOverallStats records).totalComplain)
    ∧ (∀ s ∈ calculateGroupStats records,
        GroupStats.carriedRates s
          = [rate s.blackOutbound s.totalOutbound, rate s.blackPickup s.totalPickup])
    ∧ (∀ s ∈ calculateProvinceStats records g,
        s.blackOutboundRate = rate s.blackOutbound s.totalOutbound
        ∧ s.blackPickupRate = rate s.blackPickup s.totalPickup)
    ∧ (∀ s ∈ calculateAccountStats records,
        s.blackOutboundRate = rate s.blackOutbound s.totalOutbound
        ∧ s.blackPickupRate = rate s.blackPickup s.totalPickup)
    ∧ (∀ s ∈ calculateAccountProvinceStats records a,
        s.blackOutboundRate = rate s.blackOutbound s.totalOutbound
        ∧ s.blackPickupRate = rate s.blackPickup s.totalPickup) := by
  refine ⟨⟨rfl, rfl, rfl, rfl⟩, ?_, ?_, ?_, ?_⟩
  · intro s hs
    have h := mem_groupStats_rates records s hs
    rw [GroupStats.carriedRates, h.1, h.2]
  · intro s hs; exact mem_provinceStats_rates records g s hs
  · intro s hs; exact mem_accountStats_rates records s hs
  · intro s hs; exact mem_apStats_rates records a s hs

/-- A throwaway group row used only to take the head of a concrete result
list. -/
def groupDummy : GroupStats := ⟨"", 0, 0, 0, 0, 0, 0, 0, 0⟩

/-- Witness for C3 at a concrete input: the single group row for the
sample record carries exactly the outbound and pickup rates given by the
formula. -/
theorem c3_row_rates_witness :
    ((calculateGroupStats [crGroupA]).headD groupDummy) ∈ calculateGroupStats [crGroupA]
    ∧ GroupStats.carriedRates ((calculateGroupStats [crGroupA]).headD groupDummy)
        = [rate ((calculateGroupStats [crGroupA]).headD groupDummy).blackOutbound
              ((calculateGroupStats [crGroupA]).headD groupDummy).totalOutbound,
           rate ((calculateGroupStats [crGroupA]).headD groupDummy).blackPickup
              ((calculateGroupStats [crGroupA]).headD groupDummy).totalPickup] :=
  ⟨by decide, (c3_row_rates [crGroupA] none none).2.1 _ (by decide)⟩

/-- The derived-rate formula yields 0 on a zero denominator. -/
theorem rate_zero_total (black : Int) : rate black 0 = 0 := by
  simp [rate]

/-- C9: in every grouped reduction, a key whose summed
`total_outbound_count` is 0 yields `blackOutboundRate = 0` — the guarded
formula never divides by the zero denominator. -/
theorem c9_zero_denominator (records : List BlacklistRecord) (g a : Option String) :
    (∀ s ∈ calculateGroupStats records,
        s.totalOutbound = 0 → s.blackOutboundRate = 0)
    ∧ (∀ s ∈ calculateProvinceStats records g,
        s.totalOutbound = 0 → s.blackOutboundRate = 0)
    ∧ (∀ s ∈ calculateAccountStats records,
        s.totalOutbound = 0 → s.blackOutboundRate = 0)
    ∧ (∀ s ∈ calculateAccountProvinceStats records a,
        s.totalOutbound = 0 → s.blackOutboundRate = 0) := by
  refine ⟨?_, ?_, ?_, ?_⟩
  · intro s hs h0
    rw [(mem_groupStats_rates records s hs).1, h0, rate_zero_total]
  · intro s hs h0
    rw [(mem_provinceStats_rates records g s hs).1, h0, rate_zero_total]
  · intro s hs h0
    rw [(mem_accountStats_rates records s hs).1, h0, rate_zero_total]
  · intro s hs h0
    rw [(mem_apStats_rates records a s hs).1, h0, rate_zero_total]

/-- A record with a positive black outbound count but zero total outbound
count: the group's denominator sums to 0. -/
def crBlackOnly : BlacklistRecord := ⟨"d", "acct", "p", "grp", 0, 5, 0, 0, 0, 0, 0, 0⟩

/-- Witness for C9 at a concrete input: the group row summing to zero total
outbound (with a nonzero black count) reports rate 0. -/
theorem c9_zero_denominator_witness :
    ((calculateGroupStats [crBlackOnly]).headD groupDummy) ∈ calculateGroupStats [crBlackOnly]
    ∧ ((calculateGroupStats [crBlackOnly]).headD groupDummy).totalOutbound = 0
    ∧ ((calculateGroupStats [crBlackOnly]).headD groupDummy).blackOutboundRate = 0 :=
  ⟨by decide, by decide,
    (c9_zero_denominator [crBlackOnly] none none).1 _ (by decide) (by decide)⟩

/-! ## Rate bounds under valid input -/

/-- A semantically valid record: every black counter is non-negative and
bounded by its total counter. -/
def ValidRec (r : BlacklistRecord) : Prop :=
  0 ≤ r.black_outbound_count ∧ r.black_outbound_count ≤ r.total_outbound_count
  ∧ 0 ≤ r.black_pickup_count ∧ r.black_pickup_count ≤ r.total_pickup_count
  ∧ 0 ≤ r.black_pay_count ∧ r.black_pay_count ≤ r.total_pay_count
  ∧ 0 ≤ r.black_complain_count ∧ r.black_complain_count ≤ r.total_complain_count

instance (r : BlacklistRecord) : Decidable (ValidRec r) := by
  unfold ValidRec; infer_instance

/-- A valid accumulator: every black sum is non-negative and bounded by its
total sum. -/
def ValidAgg (v : Agg) : Prop :=
  0 ≤ v.blackOutbound ∧ v.blackOutbound ≤ v.totalOutbound
  ∧ 0 ≤ v.blackPickup ∧ v.blackPickup ≤ v.totalPickup
  ∧ 0 ≤ v.blackPay ∧ v.blackPay ≤ v.totalPay

/-- Adding a valid record preserves accumulator validity. -/
theorem validAgg_add (v : Agg) (r : BlacklistRecord)
    (hv : ValidAgg v) (hr : ValidRec r) : ValidAgg (v.add r) := by
  simp only [ValidAgg, Agg.add, ValidRec] at *
  omega

/-- The zero accumulator is valid. -/
theorem validAgg_zero : ValidAgg Agg.zero := by
  simp [ValidAgg, Agg.zero]

/-- Step lemma: `bump` preserves validity of every bucket. -/
theorem bump_valid (key : String) (r : BlacklistRecord) (m : List (String × Agg))
    (hm : ∀ b ∈ m, ValidAgg b.2) (hr : ValidRec r) :
    ∀ b ∈ bump key r m, ValidAgg b.2 := by
  induction m with
  | nil =>
      intro b hb
      simp only [bump, List.mem_singleton] at hb
      subst hb
      exact validAgg_add _ _ validAgg_zero hr
  | cons e rest ih =>
      cases e with
      | mk k v =>
          intro b hb
          by_cases h : k = key
          · simp only [bump, if_pos h, List.mem_cons] at hb
            rcases hb with hb | hb
            · subst hb
              exact validAgg_add _ _ (hm _ (List.mem_cons_self _ _)) hr
            · exact hm _ (List.mem_cons_of_mem _ hb)
          · simp only [bump, if_neg h, List.mem_cons] at hb
            rcases hb with hb | hb
            · subst hb; exact hm _ (List.mem_cons_self _ _)
            · exact ih (fun x hx => hm x (List.mem_cons_of_mem _ hx)) b hb

/-- The grouping fold preserves bucket validity. -/
theorem foldBuckets_valid (keyOf : BlacklistRecord → String) :
    ∀ (records : List BlacklistRecord) (m : List (String × Agg)),
      (∀ b ∈ m, ValidAgg b.2) → (∀ r ∈ records, ValidRec r) →
      ∀ b ∈ records.foldl (fun m r => bump (keyOf r) r m) m, ValidAgg b.2 := by
  intro records
  induction records with
  | nil => intro m hm _ b hb; exact hm b hb
  | cons r rs ih =>
      intro m hm hrec b hb
      simp only [List.foldl_cons] at hb
      exact ih (bump (keyOf r) r m)
        (bump_valid (keyOf r) r m hm (hrec r (List.mem_cons_self _ _)))
        (fun x hx => hrec x (List.mem_cons_of_mem _ hx)) b hb

/-- Buckets built from valid records are valid. -/
theorem buildBuckets_valid (keyOf : BlacklistRecord → String)
    (records : List BlacklistRecord) (hrec : ∀ r ∈ records, ValidRec r) :
    ∀ b ∈ buildBuckets keyOf records, ValidAgg b.2 :=
  foldBuckets_valid keyOf records [] (by intro b hb; cases hb) hrec

/-- Step lemma: `apBump` preserves validity of every bucket's sums. -/
theorem apBump_valid (r : BlacklistRecord) (m : List (String × APAgg))
    (hm : ∀ b ∈ m, ValidAgg b.2.sums) (hr : ValidRec r) :
    ∀ b ∈ apBump r m, ValidAgg b.2.sums := by
  induction m with
  | nil =>
      intro b hb
      simp only [apBump, List.mem_singleton] at hb
      subst hb
      exact validAgg_add _ _ validAgg_zero hr
  | cons e rest ih =>
      cases e with
      | mk k v =>
          intro b hb
          by_cases h : k = apKey r
          · simp only [apBump, if_pos h, List.mem_cons] at hb
            rcases hb with hb | hb
            · subst hb
              exact validAgg_add _ _ (hm _ (List.mem_cons_self _ _)) hr
            · exact hm _ (List.mem_cons_of_mem _ hb)
          · simp only [apBump, if_neg h, List.mem_cons] at hb
            rcases hb with hb | hb
            · subst hb; exact hm _ (List.mem_cons_self _ _)
            · exact ih (fun x hx => hm x (List.mem_cons_of_mem _ hx)) b hb

/-- Account×province buckets built from valid records have valid sums. -/
theorem apBuckets_valid (records : List BlacklistRecord) (a : Option String)
    (hrec : ∀ r ∈ apFiltered records a, ValidRec r) :
    ∀ b ∈ apBuckets records a, ValidAgg b.2.sums := by
  rw [apBuckets]
  suffices h : ∀ (rs : List BlacklistRecord) (m : List (String × APAgg)),
      (∀ b ∈ m, ValidAgg b.2.sums) → (∀ r ∈ rs, ValidRec r) →
      ∀ b ∈ rs.foldl (fun m r => apBump r m) m, ValidAgg b.2.sums by
    exact h _ [] (by intro b hb; cases hb) hrec
  intro rs
  induction rs with
  | nil => intro m hm _ b hb; exact hm b hb
  | cons r rest ih =>
      intro m hm hrec2 b hb
      simp only [List.foldl_cons] at hb
      exact ih (apBump r m)
        (apBump_valid r m hm (hrec2 r (List.mem_cons_self _ _)))
        (fun x hx => hrec2 x (List.mem_cons_of_mem _ hx)) b hb

/-- The filtered record list of the province reduction is a sub-collection
of the input. -/
theorem mem_provFiltered (records : List BlacklistRecord) (g : Option String)
    (r : BlacklistRecord) (hr : r ∈ provFiltered records g) : r ∈ records := by
  cases g with
  | none => exact hr
  | some s =>
      by_cases h : s = ""
      · simpa [provFiltered, h] using hr
      · simp only [provFiltered, if_neg h] at hr
        exact (List.mem_filter.mp hr).1

/-- The filtered record list of the account×province reduction is a
sub-collection of the input. -/
theorem mem_apFiltered (records : List BlacklistRecord) (a : Option String)
    (r : BlacklistRecord) (hr : r ∈ apFiltered records a) : r ∈ records := by
  cases a with
  | none => exact hr
  | some s =>
      by_cases h : s = ""
      · simpa [apFiltered, h] using hr
      · simp only [apFiltered, if_neg h] at hr
        exact (List.mem_filter.mp hr).1

/-- The derived-rate formula stays inside `[0, 100]` whenever
`0 ≤ black ≤ total`. -/
theorem rate_bounds (b t : Int) (hb : 0 ≤ b) (hbt : b ≤ t) :
    0 ≤ rate b t ∧ rate b t ≤ 100 := by
  rw [rate]
  split
  · rename_i h
    have hb2 : (0 : ℚ) ≤ (b : ℚ) := by exact_mod_cast hb
    have ht2 : (0 : ℚ) < (t : ℚ) := by exact_mod_cast h
    have hbt2 : (b : ℚ) ≤ (t : ℚ) := by exact_mod_cast hbt
    constructor
    · exact mul_nonneg (div_nonneg hb2 ht2.le) (by norm_num)
    · have h1 : (b : ℚ) / (t : ℚ) ≤ 1 := (div_le_one ht2).mpr hbt2
      calc (b : ℚ) / (t : ℚ) * 100 ≤ 1 * 100 :=
            mul_le_mul_of_nonneg_right h1 (by norm_num)
        _ = 100 := by norm_num
  · norm_num

/-- The four overall rates, written over the record-list sums. -/
theorem overall_rates_eq (records : List BlacklistRecord) :
    (calculateOverallStats records).blackOutboundRate
        = rate ((records.map (fun r => r.black_outbound_count)).sum)
            ((records.map (fun r => r.total_outbound_count)).sum)
    ∧ (calculateOverallStats records).blackPickupRate
        = rate ((records.map (fun r => r.black_pickup_count)).sum)
            ((records.map (fun r => r.total_pickup_count)).sum)
    ∧ (calculateOverallStats records).blackPayRate
        = rate ((records.map (fun r => r.black_pay_count)).sum)
            ((records.map (fun r => r.total_pay_count)).sum)
    ∧ (calculateOverallStats records).blackComplainRate
        = rate ((records.map (fun r => r.black_complain_count)).sum)
            ((records.map (fun r => r.total_complain_count)).sum) := by
  simp [calculateOverallStats, overall_foldl_spec]

/-- Group rows built from valid records have valid outbound and pickup
sums. -/
theorem groupRow_valid (records : List BlacklistRecord)
    (hrec : ∀ r ∈ records, ValidRec r) (s : GroupStats)
    (hs : s ∈ calculateGroupStats records) :
    0 ≤ s.blackOutbound ∧ s.blackOutbound ≤ s.totalOutbound
    ∧ 0 ≤ s.blackPickup ∧ s.blackPickup ≤ s.totalPickup := by
  rw [calculateGroupStats] at hs
  rcases List.mem_map.mp hs with ⟨b, hb, rfl⟩
  have hv := buildBuckets_valid _ records hrec b hb
  exact ⟨hv.1, hv.2.1, hv.2.2.1, hv.2.2.2.1⟩

/-- Province rows built from valid records have valid outbound and pickup
sums. -/
theorem provinceRow_valid (records : List BlacklistRecord) (g : Option String)
    (hrec : ∀ r ∈ records, ValidRec r) (s : ProvinceStats)
    (hs : s ∈ calculateProvinceStats records g) :
    0 ≤ s.blackOutbound ∧ s.blackOutbound ≤ s.totalOutbound
    ∧ 0 ≤ s.blackPickup ∧ s.blackPickup ≤ s.totalPickup := by
  rw [calculateProvinceStats] at hs
  have hs2 := (sortDesc_perm (fun x => x.totalOutbound) (provinceRows records g)).mem_iff.mp hs
  rw [provinceRows] at hs2
  rcases List.mem_map.mp hs2 with ⟨b, hb, rfl⟩
  have hv := buildBuckets_valid _ (provFiltered records g)
    (fun r hr => hrec r (mem_provFiltered records g r hr)) b hb
  exact ⟨hv.1, hv.2.1, hv.2.2.1, hv.2.2.2.1⟩

/-- Account rows built from valid records have valid outbound and pickup
sums. -/
theorem accountRow_valid (records : List BlacklistRecord)
    (hrec : ∀ r ∈ records, ValidRec r) (s : AccountStats)
    (hs : s ∈ calculateAccountStats records) :
    0 ≤ s.blackOutbound ∧ s.blackOutbound ≤ s.totalOutbound
    ∧ 0 ≤ s.blackPickup ∧ s.blackPickup ≤ s.totalPickup := by
  rw [calculateAccountStats] at hs
  have hs2 := (sortDesc_perm (fun x => x.totalOutbound) (accountRows records)).mem_iff.mp hs
  rw [accountRows] at hs2
  rcases List.mem_map.mp hs2 with ⟨b, hb, rfl⟩
  have hv := buildBuckets_valid _ records hrec b hb
  exact ⟨hv.1, hv.2.1, hv.2.2.1, hv.2.2.2.1⟩

/-- Account×province rows built from valid records have valid outbound and
pickup sums. -/
theorem apRow_valid (records : List BlacklistRecord) (a : Option String)
    (hrec : ∀ r ∈ records, ValidRec r) (s : AccountProvinceStats)
    (hs : s ∈ calculateAccountProvinceStats records a) :
    0 ≤ s.blackOutbound ∧ s.blackOutbound ≤ s.totalOutbound
    ∧ 0 ≤ s.blackPickup ∧ s.blackPickup ≤ s.totalPickup := by
  rw [calculateAccountProvinceStats] at hs
  have hs2 := (sortDesc_perm (fun x => x.totalOutbound) (apRows records a)).mem_iff.mp hs
  rw [apRows] at hs2
  rcases List.mem_map.mp hs2 with ⟨b, hb, rfl⟩
  have hv := apBuckets_valid records a
    (fun r hr => hrec r (mem_apFiltered records a r hr)) b hb
  exact ⟨hv.1, hv.2.1, hv.2.2.1, hv.2.2.2.1⟩

/-- A record satisfying the claim's per-pair hypothesis
`black ≤ total` while a black counter is negative. -/
def crNegBlack : BlacklistRecord := ⟨"d", "acct", "p", "grp", 5, -3, 0, 0, 0, 0, 0, 0⟩

/-- C8, counterexample: `crNegBlack` satisfies `black ≤ total` for every
counter pair, yet the overall black outbound rate is `-60`, outside
`[0, 100]` — the claim's hypothesis does not exclude negative black
counters. -/
theorem c8_counterexample :
    (crNegBlack.black_outbound_count ≤ crNegBlack.total_outbound_count
      ∧ crNegBlack.black_pickup_count ≤ crNegBlack.total_pickup_count
      ∧ crNegBlack.black_pay_count ≤ crNegBlack.total_pay_count
      ∧ crNegBlack.black_complain_count ≤ crNegBlack.total_complain_count)
    ∧ ¬ (0 ≤ (calculateOverallStats [crNegBlack]).blackOutboundRate
          ∧ (calculateOverallStats [crNegBlack]).blackOutboundRate ≤ 100) := by
  constructor
  · refine ⟨?_, ?_, ?_, ?_⟩ <;> decide
  · intro h
    have h0 := h.1
    rw [(overall_rates_eq [crNegBlack]).1] at h0
    simp only [crNegBlack, List.map_cons, List.map_nil, List.sum_cons,
      List.sum_nil] at h0
    rw [rate] at h0
    norm_num at h0

/-- C8, amended: when every record satisfies `0 ≤ black ≤ total` for each
counter pair, every derived rate produced by every reduction — the four
overall rates and the outbound and pickup rates of every grouped row —
lies in `[0, 100]`. -/
theorem c8_rate_bounds (records : List BlacklistRecord) (g a : Option String)
    (hrec : ∀ r ∈ records, ValidRec r) :
    ((0 ≤ (calculateOverallStats records).blackOutboundRate
        ∧ (calculateOverallStats records).blackOutboundRate ≤ 100)
      ∧ (0 ≤ (calculateOverallStats records).blackPickupRate
        ∧ (calculateOverallStats records).blackPickupRate ≤ 100)
      ∧ (0 ≤ (calculateOverallStats records).blackPayRate
        ∧ (calculateOverallStats records).blackPayRate ≤ 100)
      ∧ (0 ≤ (calculateOverallStats records).blackComplainRate
        ∧ (calculateOverallStats records).blackComplainRate ≤ 100))
    ∧ (∀ s ∈ calculateGroupStats records,
        (0 ≤ s.blackOutboundRate ∧ s.blackOutboundRate ≤ 100)
        ∧ (0 ≤ s.blackPickupRate ∧ s.blackPickupRate ≤ 100))
    ∧ (∀ s ∈ calculateProvinceStats records g,
        (0 ≤ s.blackOutboundRate ∧ s.blackOutboundRate ≤ 100)
        ∧ (0 ≤ s.blackPickupRate ∧ s.blackPickupRate ≤ 100))
    ∧ (∀ s ∈ calculateAccountStats records,
        (0 ≤ s.blackOutboundRate ∧ s.blackOutboundRate ≤ 100)
        ∧ (0 ≤ s.blackPickupRate ∧ s.blackPickupRate ≤ 100))
    ∧ (∀ s ∈ calculateAccountProvinceStats records a,
        (0 ≤ s.blackOutboundRate ∧ s.blackOutboundRate ≤ 100)
        ∧ (0 ≤ s.blackPickupRate ∧ s.blackPickupRate ≤ 100)) := by
  refine ⟨?_, ?_, ?_, ?_, ?_⟩
  · have he := overall_rates_eq records
    refine ⟨?_, ?_, ?_, ?_⟩
    · rw [he.1]
      exact rate_bounds _ _
        (List.sum_nonneg (by
          intro x hx
          rcases List.mem_map.mp hx with ⟨r, hr, rfl⟩
          exact (hrec r hr).1))
        (List.sum_le_sum (fun r hr => (hrec r hr).2.1))
    · rw [he.2.1]
      exact rate_bounds _ _
        (List.sum_nonneg (by
          intro x hx
          rcases List.mem_map.mp hx with ⟨r, hr, rfl⟩
          exact (hrec r hr).2.2.1))
        (List.sum_le_sum (fun r hr => (hrec r hr).2.2.2.1))
    · rw [he.2.2.1]
      exact rate_bounds _ _
        (List.sum_nonneg (by
          intro x hx
          rcases List.mem_map.mp hx with ⟨r, hr, rfl⟩
          exact (hrec r hr).2.2.2.2.1))
        (List.sum_le_sum (fun r hr => (hrec r hr).2.2.2.2.2.1))
    · rw [he.2.2.2]
      exact rate_bounds _ _
        (List.sum_nonneg (by
          intro x hx
          rcases List.mem_map.mp hx with ⟨r, hr, rfl⟩
          exact (hrec r hr).2.2.2.2.2.2.1))
        (List.sum_le_sum (fun r hr => (hrec r hr).2.2.2.2.2.2.2))
  · intro s hs
    have hv := groupRow_valid records hrec s hs
    have he := mem_groupStats_rates records s hs
    rw [he.1, he.2]
    exact ⟨rate_bounds _ _ hv.1 hv.2.1, rate_bounds _ _ hv.2.2.1 hv.2.2.2⟩
  · intro s hs
    have hv := provinceRow_valid records g hrec s hs
    have he := mem_provinceStats_rates records g s hs
    rw [he.1, he.2]
    exact ⟨rate_bounds _ _ hv.1 hv.2.1, rate_bounds _ _ hv.2.2.1 hv.2.2.2⟩
  · intro s hs
    have hv := accountRow_valid records hrec s hs
    have he := mem_accountStats_rates records s hs
    rw [he.1, he.2]
    exact ⟨rate_bounds _ _ hv.1 hv.2.1, rate_bounds _ _ hv.2.2.1 hv.2.2.2⟩
  · intro s hs
    have hv := apRow_valid records a hrec s hs
    have he := mem_apStats_rates records a s hs
    rw [he.1, he.2]
    exact ⟨rate_bounds _ _ hv.1 hv.2.1, rate_bounds _ _ hv.2.2.1 hv.2.2.2⟩

/-- Witness for C8 at a concrete input: the all-zero record is valid and
its overall black outbound rate lies inside `[0, 100]`. -/
theorem c8_rate_bounds_witness :
    0 ≤ (calculateOverallStats [crGroupA]).blackOutboundRate
    ∧ (calculateOverallStats [crGroupA]).blackOutboundRate ≤ 100 :=
  (c8_rate_bounds [crGroupA] none none (by decide)).1.1

/-! ## Parser coercion properties -/

/-- A parsed row whose `total_outbound_count` field holds the numeric
string `"-3"`. -/
def rowNeg : CSVRow :=
  ⟨some "d", some "a", some "p", some "g", some "-3", some "0", some "0",
   some "0", some "0", some "0", some "0", some "0"⟩

/-- A structurally clean parse result consisting of the single row
`rowNeg`. -/
def inputNeg : PapaResult := ⟨[], some [rowNeg]⟩

/-- C7, counterexample: `parseCSVData` maps the numeric field `"-3"` to the
counter `-3`, a negative integer — the parser coerces, but does not clamp,
negative numeric strings, so the non-negativity invariant fails. -/
theorem c7_counterexample :
    (parseCSVData inputNeg).map (fun r => r.total_outbound_count) = [-3]
    ∧ ¬ (0 ≤ (-3 : Int)) := by
  constructor
  · decide
  · decide

/-- C7, amended: every record returned by `parseCSVData` is the field-wise
coercion of an input row; the counter coercion maps an absent field to 0
and a non-numeric field to 0 (never an error), and yields a non-negative
integer whenever the field does not begin with a minus sign — but a
numeric field with a leading minus sign produces a negative counter. -/
theorem c7_counter_coercion :
    (∀ (input : PapaResult) (rec : BlacklistRecord), rec ∈ parseCSVData input →
        ∃ row ∈ input.data.getD [], rec = coerceRow row)
    ∧ coerceCounter none = 0
    ∧ (∀ s : String, jsParseInt s = none → coerceCounter (some s) = 0)
    ∧ (∀ s : String, hasLeadingMinus s = false → 0 ≤ coerceCounter (some s)) := by
  refine ⟨?_, rfl, ?_, ?_⟩
  · intro input rec hrec
    rw [parseCSVData] at hrec
    split at hrec
    · cases hrec
    · rcases List.mem_map.mp hrec with ⟨row, hrow, rfl⟩
      exact ⟨row, hrow, rfl⟩
  · intro s hs
    simp [coerceCounter, hs]
  · intro s h
    rw [coerceCounter]
    cases hj : jsParseInt s with
    | none => simp
    | some n =>
        simp only [Option.getD_some]
        rw [hasLeadingMinus, beq_eq_false_iff_ne] at h
        rw [jsParseInt] at hj
        simp only [if_neg h] at hj
        rcases Option.map_eq_some'.mp hj with ⟨v, hv, hn⟩
        rw [← hn, one_mul, Int.ofNat_eq_natCast]
        exact_mod_cast Nat.zero_le v

/-- Witness for C7 at concrete inputs: the record coerced from `rowNeg` is
produced from that row, a non-numeric field yields 0, and a digits-only
field yields a non-negative counter. -/
theorem c7_counter_coercion_witness :
    coerceRow rowNeg ∈ parseCSVData inputNeg
    ∧ (∃ row ∈ inputNeg.data.getD [], coerceRow rowNeg = coerceRow row)
    ∧ coerceCounter (some "abc") = 0
    ∧ 0 ≤ coerceCounter (some "12") :=
  ⟨by decide,
   c7_counter_coercion.1 inputNeg (coerceRow rowNeg) (by decide),
   c7_counter_coercion.2.2.1 "abc" (by decide),
   c7_counter_coercion.2.2.2 "12" (by decide)⟩

/-! ## Batch orchestration -/

/-- The `forEach`+push accumulation of `handleUpload`'s batch branch is the
`filterMap` described by the claim: one result per file with a non-empty
parse, in input order. -/
theorem batch_foldl_eq :
    ∀ (files : List UploadedFile) (acc : List BatchFileResult),
      files.foldl (fun acc file =>
        let records := parseCSVData file.content
        if records.length > 0 then
          acc ++ [{ fileName := stripCsvExt file.name
                    stats := calculateOverallStats records
                    rawData := records }]
        else acc) acc
      = acc ++ batchResults files := by
  intro files
  induction files with
  | nil => intro acc; simp [batchResults]
  | cons f fs ih =>
      intro acc
      by_cases h : (parseCSVData f.content).length > 0
      · simp [List.foldl_cons, h, ih, batchResults, List.filterMap_cons]
      · simp [List.foldl_cons, h, ih, batchResults, List.filterMap_cons]

/-- The per-file contribution is dropped exactly when the file parses to
zero records. -/
theorem batch_entry_none (f : UploadedFile) :
    ((fun file =>
        let records := parseCSVData file.content
        if records.length > 0 then
          some { fileName := stripCsvExt file.name
                 stats := calculateOverallStats records
                 rawData := records }
        else (none : Option BatchFileResult)) f) = none
      ↔ parseCSVData f.content = [] := by
  by_cases h : (parseCSVData f.content).length > 0
  · simp only [if_pos h]
    constructor
    · intro hc; cases hc
    · intro hc; rw [hc] at h; cases h
  · simp only [if_neg h]
    simp only [true_iff]
    have h0 : (parseCSVData f.content).length = 0 := by omega
    exact List.length_eq_zero.mp h0

/-- C10, counterexample: with an empty upload list, every file vacuously
fails to parse, yet the batch branch takes the zero-file early return and
never reports the batch invalid — the claimed "if and only if" fails. -/
theorem c10_counterexample :
    handleUploadBatch [] = BatchOutcome.earlyReturn
    ∧ (∀ f ∈ ([] : List UploadedFile), parseCSVData f.content = [])
    ∧ handleUploadBatch [] ≠ BatchOutcome.invalid := by
  refine ⟨rfl, ?_, ?_⟩
  · intro f hf; cases hf
  · intro h; cases h

/-- C10, amended: on a non-empty upload list the batch result is exactly
one `BatchFileResult` per file whose content parses to a non-empty record
list, in input order (`batchResults`), and the batch is reported invalid
precisely when the list is non-empty and every file fails to parse; an
empty upload list is a silent early return with no invalid report. -/
theorem c10_batch (files : List UploadedFile) :
    (handleUploadBatch files = BatchOutcome.earlyReturn ↔ files = [])
    ∧ (handleUploadBatch files = BatchOutcome.invalid
        ↔ (files ≠ [] ∧ ∀ f ∈ files, parseCSVData f.content = []))
    ∧ (files ≠ [] → batchResults files ≠ [] →
        handleUploadBatch files = BatchOutcome.success (batchResults files)) := by
  have hres := batch_foldl_eq files []
  simp only [List.nil_append] at hres
  refine ⟨?_, ?_, ?_⟩
  · constructor
    · intro h
      rw [handleUploadBatch] at h
      split at h
      · rename_i hlen; exact List.length_eq_zero.mp hlen
      · rw [hres] at h
        simp only [] at h
        split at h <;> cases h
    · intro h; subst h; rfl
  · constructor
    · intro h
      rw [handleUploadBatch] at h
      split at h
      · cases h
      · rename_i hlen
        refine ⟨fun hnil => hlen (by rw [hnil]; rfl), ?_⟩
        rw [hres] at h
        simp only [] at h
        split at h
        · rename_i hz
          have hz2 : batchResults files = [] := List.length_eq_zero.mp hz
          rw [batchResults, List.filterMap_eq_nil_iff] at hz2
          intro f hf
          exact (batch_entry_none f).mp (hz2 f hf)
        · cases h
    · rintro ⟨hne, hall⟩
      have hz : batchResults files = [] := by
        rw [batchResults, List.filterMap_eq_nil_iff]
        intro f hf
        exact (batch_entry_none f).mpr (hall f hf)
      rw [handleUploadBatch]
      rw [if_neg (fun hlen => hne (List.length_eq_zero.mp hlen))]
      rw [hres, hz]
      rfl
  · intro hne hsome
    rw [handleUploadBatch]
    rw [if_neg (fun hlen => hne (List.length_eq_zero.mp hlen))]
    rw [hres]
    rw [if_neg (fun hlen => hsome (List.length_eq_zero.mp hlen))]

/-- A file whose content parses to one record. -/
def fGood : UploadedFile := ⟨"a.csv", inputNeg⟩

/-- A file whose content reports a structural parse error and therefore
parses to zero records. -/
def fBad : UploadedFile := ⟨"b.csv", ⟨["unterminated quote"], some []⟩⟩

/-- Witness for C10 at a concrete input: one good and one bad file produce
a successful batch carrying exactly the good file's result. -/
theorem c10_batch_witness :
    handleUploadBatch [fGood, fBad] = BatchOutcome.success (batchResults [fGood, fBad]) :=
  (c10_batch [fGood, fBad]).2.2 (by decide) (by decide)
